import Mathlib

/-!
Shallow embedding of the FFmpeg-based video service
(`app/services/video_service.py` together with the preset validation done in
`app/routers/video.py`) and proofs of the specification claims about it.

Modelling conventions: Python floats are modelled as exact rationals (`ℚ`),
Python `int` as `ℤ`, and every external effect (subprocess invocations,
`ffprobe` output, the filesystem) is abstracted as an explicit oracle value
passed to the embedded function.  Fallible Python code (functions that can
raise) is embedded as `Except PyErr`.
-/

namespace VideoService

/-- Python exceptions raised (or HTTP errors returned) by the service and
router code: `valueError` mirrors `ValueError`, `runtimeError` mirrors
`RuntimeError`, `zeroDivisionError` mirrors `ZeroDivisionError`, and
`httpException` mirrors FastAPI's `HTTPException(status_code, detail)`. -/
inductive PyErr where
  | valueError (msg : String)
  | runtimeError (msg : String)
  | zeroDivisionError (msg : String)
  | httpException (status : Nat) (detail : String)
deriving DecidableEq, Repr

/-- Python `x % y` on floats for a positive divisor `y`:
`x - y * floor (x / y)`. -/
def pyMod (x y : ℚ) : ℚ := x - y * ⌊x / y⌋

/-- Python `f"{n:02d}"` for an integer: pad with a leading zero to width 2. -/
def pyFmt02 (n : ℤ) : String :=
  if 0 ≤ n ∧ n < 10 then "0" ++ toString n else toString n

/-- `format_duration` (video_service.py:123): `hours = int(seconds // 3600)`,
`minutes = int((seconds % 3600) // 60)`, `secs = int(seconds % 60)`, rendered
as `f"{hours}:{minutes:02d}:{secs:02d}"` when `hours > 0` and as
`f"{minutes}:{secs:02d}"` otherwise.  (`int` of the result of float floor
division / float modulo is exactly the floor, the embedded form below.) -/
def format_duration (seconds : ℚ) : String :=
  let hours : ℤ := ⌊seconds / 3600⌋
  let minutes : ℤ := ⌊pyMod seconds 3600 / 60⌋
  let secs : ℤ := ⌊pyMod seconds 60⌋
  if 0 < hours then
    toString hours ++ ":" ++ pyFmt02 minutes ++ ":" ++ pyFmt02 secs
  else
    toString minutes ++ ":" ++ pyFmt02 secs

/-- Zero-pad a natural number to two digits (specification side). -/
def pad2 (n : ℕ) : String := if n < 10 then "0" ++ toString n else toString n

/-- Modelled from the spec's words for the duration formatter: take the whole
number of seconds `t` (truncation of the input), split it into hours, minutes
and seconds by truncating division, and render `H:MM:SS` when the whole number
of hours is positive and `M:SS` otherwise, with minutes and seconds of the
`MM`/`SS` positions zero-padded to two digits. -/
def formatDurationSpec (t : ℕ) : String :=
  if 0 < t / 3600 then
    toString (t / 3600) ++ ":" ++ pad2 (t / 60 % 60) ++ ":" ++ pad2 (t % 60)
  else
    toString (t / 60) ++ ":" ++ pad2 (t % 60)

lemma int_toString_natCast (n : ℕ) : toString ((n : ℤ)) = toString n := rfl

lemma pyFmt02_natCast (n : ℕ) : pyFmt02 (n : ℤ) = pad2 n := by
  unfold pyFmt02 pad2
  by_cases h : n < 10
  · rw [if_pos ⟨Int.natCast_nonneg n, by exact_mod_cast h⟩, if_pos h,
      int_toString_natCast]
  · rw [if_neg (by push_neg; intro _; exact_mod_cast Nat.not_lt.mp h),
      if_neg h, int_toString_natCast]

lemma floor_div_natCast (s : ℚ) (d : ℕ) (hd : 0 < d) :
    ⌊s / (d : ℚ)⌋ = ⌊s⌋ / (d : ℤ) := by
  apply eq_of_forall_le_iff
  intro z
  rw [Int.le_floor, le_div_iff₀ (by exact_mod_cast hd),
    show ((d : ℚ)) = (((d : ℤ) : ℚ)) by push_cast; ring,
    ← Int.cast_mul, ← Int.le_floor,
    Int.le_ediv_iff_mul_le (by exact_mod_cast hd)]

lemma floor_pyMod_natCast (s : ℚ) (d : ℕ) (hd : 0 < d) :
    ⌊pyMod s (d : ℚ)⌋ = ⌊s⌋ % (d : ℤ) := by
  unfold pyMod
  rw [show (d : ℚ) * (⌊s / (d : ℚ)⌋ : ℚ) = (((d : ℤ) * ⌊s / (d : ℚ)⌋ : ℤ) : ℚ)
      by push_cast; ring,
    Int.floor_sub_int, floor_div_natCast s d hd, Int.emod_def]

/-- C7: for every nonnegative number of seconds, `format_duration` agrees
with the specification rendering on the truncated whole number of seconds:
`H:MM:SS` when the whole number of hours is positive, else `M:SS`, every
component obtained by truncation. -/
theorem format_duration_eq_spec (s : ℚ) (hs : 0 ≤ s) :
    format_duration s = formatDurationSpec ⌊s⌋.toNat := by
  have hT : (0 : ℤ) ≤ ⌊s⌋ := Int.floor_nonneg.mpr hs
  have h3600 : ⌊s / (3600 : ℚ)⌋ = ⌊s⌋ / 3600 := by
    have := floor_div_natCast s 3600 (by norm_num)
    push_cast at this
    exact this
  have hm3600 : ⌊pyMod s (3600 : ℚ)⌋ = ⌊s⌋ % 3600 := by
    have := floor_pyMod_natCast s 3600 (by norm_num)
    push_cast at this
    exact this
  have hm60 : ⌊pyMod s (60 : ℚ)⌋ = ⌊s⌋ % 60 := by
    have := floor_pyMod_natCast s 60 (by norm_num)
    push_cast at this
    exact this
  have hmin : ⌊pyMod s (3600 : ℚ) / (60 : ℚ)⌋ = ⌊s⌋ / 60 % 60 := by
    have := floor_div_natCast (pyMod s 3600) 60 (by norm_num)
    push_cast at this
    rw [this, hm3600]
    omega
  unfold format_duration formatDurationSpec
  rw [h3600, hmin, hm60]
  have e1 : ⌊s⌋ / 3600 = ((⌊s⌋.toNat / 3600 : ℕ) : ℤ) := by omega
  have e2 : ⌊s⌋ / 60 % 60 = ((⌊s⌋.toNat / 60 % 60 : ℕ) : ℤ) := by omega
  have e3 : ⌊s⌋ % 60 = ((⌊s⌋.toNat % 60 : ℕ) : ℤ) := by omega
  rw [e1, e2, e3]
  simp only [pyFmt02_natCast, int_toString_natCast, Int.natCast_pos]
  by_cases h : 0 < ⌊s⌋.toNat / 3600
  · rw [if_pos h, if_pos h]
  · rw [if_neg h, if_neg h,
      show ⌊s⌋.toNat / 60 % 60 = ⌊s⌋.toNat / 60 from by omega]

/-- C7 witness: the two concrete examples from the specification,
`125.4 s → "2:05"` and `3725 s → "1:02:05"`. -/
theorem format_duration_eq_spec_witness :
    (0 : ℚ) ≤ 125.4 ∧ format_duration 125.4 = "2:05" ∧
      format_duration 3725 = "1:02:05" :=
  ⟨by norm_num,
   by rw [format_duration_eq_spec 125.4 (by norm_num),
        show ⌊(125.4 : ℚ)⌋ = 125 from by norm_num]; decide,
   by rw [format_duration_eq_spec 3725 (by norm_num),
        show ⌊(3725 : ℚ)⌋ = 3725 from by norm_num]; decide⟩

/-- `calculate_split_times` (video_service.py:143): raises `ValueError` for
`num_parts < 2` or `num_parts > 20`, otherwise returns the list of
`(start_time, end_time)` pairs `(i * part_duration, (i+1) * part_duration)`
for `i in range(num_parts)` with `part_duration = duration / num_parts`. -/
def calculate_split_times (duration : ℚ) (num_parts : ℤ) :
    Except PyErr (List (ℚ × ℚ)) :=
  if num_parts < 2 then
    .error (.valueError "Number of parts must be at least 2")
  else if 20 < num_parts then
    .error (.valueError "Number of parts cannot exceed 20")
  else
    let part_duration := duration / (num_parts : ℚ)
    .ok ((List.range num_parts.toNat).map fun i : ℕ =>
      ((i : ℚ) * part_duration, ((i : ℚ) + 1) * part_duration))

/-- Result of one external `ffmpeg` invocation for a segment, as observed by
the code afterwards: whether the call timed out (or raised), the process
exit code, whether the output file exists, its size in bytes, and the
captured stderr text. -/
structure ExecOutcome where
  timedOut : Bool
  returncode : ℤ
  outExists : Bool
  outSize : ℕ
  stderr : String
deriving DecidableEq, Repr

/-- `_split_segment_stream_copy` (video_service.py:247): returns `True` iff
the invocation did not time out or raise, the exit code is `0`, the output
file exists and its size exceeds 1000 bytes; in every other case the output
file is removed and `False` is returned. -/
def split_segment_stream_copy (o : ExecOutcome) : Bool :=
  if o.timedOut then false
  else if o.returncode = 0 ∧ o.outExists = true ∧ 1000 < o.outSize then true
  else false

/-- `_split_segment_reencode` (video_service.py:297): same acceptance check
as the stream-copy strategy, over the re-encode invocation's outcome. -/
def split_segment_reencode (o : ExecOutcome) : Bool :=
  if o.timedOut then false
  else if o.returncode = 0 ∧ o.outExists = true ∧ 1000 < o.outSize then true
  else false

/-- Oracle for one run of `split_video`: whether FFmpeg is installed, the
result of `get_video_duration`, and the outcome of the stream-copy and
re-encode invocations for each 1-based part index. -/
structure SegWorld where
  ffmpegInstalled : Bool
  durationResult : Except PyErr ℚ
  copyOutcome : ℕ → ExecOutcome
  reencOutcome : ℕ → ExecOutcome

/-- One iteration of the `split_video` loop body (video_service.py:209):
with `use_stream_copy` the stream-copy strategy is tried first and, when it
succeeds, the part is accepted without attempting the fallback; otherwise
the part is accepted exactly when the re-encode strategy succeeds. -/
def partAccept (w : SegWorld) (use_stream_copy : Bool) (i : ℕ) : Bool :=
  if use_stream_copy && split_segment_stream_copy (w.copyOutcome i) then
    true
  else
    split_segment_reencode (w.reencOutcome i)

/-- The `for i, (start_time, end_time) in enumerate(split_times, 1)` loop of
`split_video`.  `acc` is `output_paths` (accumulated part indices, most
recent first) and `fs` is the set of segment files currently existing on
disk; each successful strategy leaves its file in place, each failed
strategy has already unlinked its own output, and on a part failing both
strategies every accumulated artifact is unlinked before raising. -/
def split_video_loop (w : SegWorld) (use_stream_copy : Bool) :
    List (ℕ × (ℚ × ℚ)) → List ℕ → List ℕ →
    Except PyErr (List ℕ) × List ℕ
  | [], acc, fs => (.ok acc.reverse, fs)
  | (i, _se) :: rest, acc, fs =>
    if partAccept w use_stream_copy i then
      split_video_loop w use_stream_copy rest (i :: acc) (i :: fs)
    else
      (.error (.valueError ("Failed to split video at part " ++ toString i)),
       acc.foldl (fun s p => s.erase p) fs)

/-- `enumerate(split_times, 1)`: pair each range with its 1-based index. -/
def enumerate1 (l : List (ℚ × ℚ)) : List (ℕ × (ℚ × ℚ)) :=
  (List.range' 1 l.length).zip l

/-- `split_video` (video_service.py:170): checks FFmpeg availability, the
part-count bounds, probes the duration, plans the split and runs the
per-segment loop.  The result pairs the Python return/raise behaviour with
the list of segment files existing when the call ends. -/
def split_video (w : SegWorld) (num_parts : ℤ) (use_stream_copy : Bool) :
    Except PyErr (List ℕ) × List ℕ :=
  if w.ffmpegInstalled = false then
    (.error (.runtimeError "FFmpeg is not installed"), [])
  else if num_parts < 2 ∨ 20 < num_parts then
    (.error (.valueError "Number of parts must be between 2 and 20"), [])
  else
    match w.durationResult with
    | .error e => (.error e, [])
    | .ok duration =>
      match calculate_split_times duration num_parts with
      | .error e => (.error e, [])
      | .ok split_times =>
        split_video_loop w use_stream_copy (enumerate1 split_times) [] []

/-- C2: for every `parts ∈ [2,20]` and `duration > 0` the planner returns
exactly `parts` ranges, range `i` (0-indexed) being
`(i·(duration/parts), (i+1)·(duration/parts))`; each range is strictly
increasing, consecutive ranges are contiguous, the first range starts at `0`
and the last range ends at `duration` exactly. -/
theorem calculate_split_times_plan (d : ℚ) (n : ℤ)
    (hd : 0 < d) (h2 : 2 ≤ n) (h20 : n ≤ 20) :
    ∃ L, calculate_split_times d n = .ok L ∧
      (L.length : ℤ) = n ∧
      (∀ i (h : i < L.length),
        L.get ⟨i, h⟩ = ((i : ℚ) * (d / (n : ℚ)), ((i : ℚ) + 1) * (d / (n : ℚ)))) ∧
      (∀ i (h : i < L.length), (L.get ⟨i, h⟩).1 < (L.get ⟨i, h⟩).2) ∧
      (∀ i (h : i + 1 < L.length),
        (L.get ⟨i, by omega⟩).2 = (L.get ⟨i + 1, h⟩).1) ∧
      (∀ h0 : 0 < L.length, (L.get ⟨0, h0⟩).1 = 0) ∧
      (∀ h0 : 0 < L.length, (L.get ⟨L.length - 1, by omega⟩).2 = d) := by
  have hnq : (0 : ℚ) < (n : ℚ) := by exact_mod_cast (by omega : (0 : ℤ) < n)
  have hpd : 0 < d / (n : ℚ) := div_pos hd hnq
  refine ⟨(List.range n.toNat).map fun i : ℕ =>
      ((i : ℚ) * (d / (n : ℚ)), ((i : ℚ) + 1) * (d / (n : ℚ))),
    ?_, ?_, ?_, ?_, ?_, ?_, ?_⟩
  · unfold calculate_split_times
    rw [if_neg (by omega), if_neg (by omega)]
  · simp only [List.length_map, List.length_range]
    omega
  · intro i h
    simp only [List.get_eq_getElem, List.getElem_map, List.getElem_range]
  · intro i h
    simp only [List.get_eq_getElem, List.getElem_map, List.getElem_range]
    have hi1 : (i : ℚ) < (i : ℚ) + 1 := by linarith
    exact mul_lt_mul_of_pos_right hi1 hpd
  · intro i h
    simp only [List.get_eq_getElem, List.getElem_map, List.getElem_range]
    push_cast
    ring
  · intro h0
    simp only [List.get_eq_getElem, List.getElem_map, List.getElem_range]
    push_cast
    ring
  · intro h0
    simp only [List.get_eq_getElem, List.getElem_map, List.getElem_range,
      List.length_map, List.length_range]
    have h1 : ((n.toNat - 1 : ℕ) : ℚ) = (n : ℚ) - 1 := by
      have h1' : ((n.toNat - 1 : ℕ) : ℤ) = n - 1 := by omega
      exact_mod_cast h1'
    rw [h1]
    have hne : (n : ℚ) ≠ 0 := ne_of_gt hnq
    field_simp

/-- C5: for every duration, `calculate_split_times` with `parts < 2` or
`parts > 20` raises `ValueError` (the `InvalidInput` condition) and returns
no plan. -/
theorem calculate_split_times_invalid_parts (d : ℚ) (n : ℤ)
    (h : n < 2 ∨ 20 < n) :
    ∃ msg, calculate_split_times d n = .error (.valueError msg) := by
  unfold calculate_split_times
  rcases h with h | h
  · exact ⟨_, by rw [if_pos h]⟩
  · exact ⟨_, by rw [if_neg (by omega), if_pos h]⟩

/-- C5 witness: 21 parts are rejected for duration 600. -/
theorem calculate_split_times_invalid_parts_witness :
    ((21 : ℤ) < 2 ∨ (20 : ℤ) < 21) ∧
      (∃ msg, calculate_split_times 600 21 = .error (.valueError msg)) :=
  ⟨by decide, calculate_split_times_invalid_parts 600 21 (by decide)⟩

/-- C2 witness: duration 600 with 3 parts; the plan is
`[(0,200), (200,400), (400,600)]` and the planner properties hold there. -/
theorem calculate_split_times_plan_witness :
    (0 : ℚ) < 600 ∧ (2 : ℤ) ≤ 3 ∧ (3 : ℤ) ≤ 20 ∧
      calculate_split_times 600 3 = .ok [(0, 200), (200, 400), (400, 600)] ∧
      (∃ L, calculate_split_times 600 3 = .ok L ∧
        (L.length : ℤ) = 3 ∧
        (∀ i (h : i < L.length),
          L.get ⟨i, h⟩ =
            ((i : ℚ) * (600 / ((3 : ℤ) : ℚ)),
             ((i : ℚ) + 1) * (600 / ((3 : ℤ) : ℚ)))) ∧
        (∀ i (h : i < L.length), (L.get ⟨i, h⟩).1 < (L.get ⟨i, h⟩).2) ∧
        (∀ i (h : i + 1 < L.length),
          (L.get ⟨i, by omega⟩).2 = (L.get ⟨i + 1, h⟩).1) ∧
        (∀ h0 : 0 < L.length, (L.get ⟨0, h0⟩).1 = 0) ∧
        (∀ h0 : 0 < L.length, (L.get ⟨L.length - 1, by omega⟩).2 = 600)) :=
  ⟨by norm_num, by decide, by decide,
   by unfold calculate_split_times; norm_num; simp [List.range_succ]; norm_num,
   calculate_split_times_plan 600 3 (by norm_num) (by decide) (by decide)⟩

lemma foldl_erase_self : ∀ l : List ℕ, l.foldl (fun s p => s.erase p) l = []
  | [] => rfl
  | a :: t => by
    rw [List.foldl_cons, List.erase_cons_head]
    exact foldl_erase_self t

lemma partAccept_false_iff (w : SegWorld) (i : ℕ) :
    partAccept w true i = false ↔
      (split_segment_stream_copy (w.copyOutcome i) = false ∧
        split_segment_reencode (w.reencOutcome i) = false) := by
  unfold partAccept
  cases hc : split_segment_stream_copy (w.copyOutcome i) <;> simp [hc]

lemma split_video_loop_first_fail (w : SegWorld) (u : Bool) (k : ℕ) :
    ∀ (s : ℕ) (ts : List (ℚ × ℚ)) (acc : List ℕ),
      ts.length = k →
      (∃ i, i ∈ List.range' s k ∧ partAccept w u i = false) →
      ∃ i₀, s ≤ i₀ ∧ i₀ < s + k ∧ partAccept w u i₀ = false ∧
        (∀ j, s ≤ j → j < i₀ → partAccept w u j = true) ∧
        split_video_loop w u ((List.range' s k).zip ts) acc acc =
          (.error (.valueError ("Failed to split video at part " ++ toString i₀)),
           []) := by
  induction k with
  | zero =>
    intro s ts acc hlen hex
    obtain ⟨i, hi, _⟩ := hex
    simp [List.range'] at hi
  | succ k ih =>
    intro s ts acc hlen hex
    cases ts with
    | nil => simp at hlen
    | cons t ts2 =>
      have hrange : List.range' s (k + 1) = s :: List.range' (s + 1) k :=
        List.range'_succ s k 1
      rw [hrange, List.zip_cons_cons]
      by_cases hacc : partAccept w u s = true
      · have hex2 : ∃ i, i ∈ List.range' (s + 1) k ∧ partAccept w u i = false := by
          obtain ⟨i, hi, hf⟩ := hex
          rw [hrange] at hi
          rcases List.mem_cons.mp hi with h | h
          · subst h
            rw [hacc] at hf
            cases hf
          · exact ⟨i, h, hf⟩
        obtain ⟨i₀, h1, h2, h3, h4, h5⟩ :=
          ih (s + 1) ts2 (s :: acc) (by simpa using hlen) hex2
        refine ⟨i₀, by omega, by omega, h3, ?_, ?_⟩
        · intro j hj1 hj2
          rcases eq_or_lt_of_le hj1 with h | h
          · rw [← h]
            exact hacc
          · exact h4 j h hj2
        · simp only [split_video_loop]
          rw [if_pos hacc]
          exact h5
      · have haccf : partAccept w u s = false := by
          cases h : partAccept w u s
          · rfl
          · exact absurd h hacc
        refine ⟨s, le_refl s, by omega, haccf, ?_, ?_⟩
        · intro j hj1 hj2
          omega
        · simp only [split_video_loop]
          rw [if_neg hacc, foldl_erase_self]

/-- C1: split extraction is all-or-nothing.  If FFmpeg is installed, the
probe succeeds, the part count is in range and some 1-based part index fails
both the stream-copy and the re-encode strategy, then `split_video` raises
`ValueError` naming the first failing index (all earlier parts having
succeeded), and no segment artifact of the plan remains on disk. -/
theorem split_video_all_or_nothing (w : SegWorld) (n : ℤ) (d : ℚ)
    (hff : w.ffmpegInstalled = true) (hdur : w.durationResult = .ok d)
    (h2 : 2 ≤ n) (h20 : n ≤ 20)
    (hfail : ∃ i : ℕ, 1 ≤ i ∧ (i : ℤ) ≤ n ∧
      split_segment_stream_copy (w.copyOutcome i) = false ∧
      split_segment_reencode (w.reencOutcome i) = false) :
    ∃ i₀ : ℕ, 1 ≤ i₀ ∧ (i₀ : ℤ) ≤ n ∧
      split_segment_stream_copy (w.copyOutcome i₀) = false ∧
      split_segment_reencode (w.reencOutcome i₀) = false ∧
      (∀ j, 1 ≤ j → j < i₀ → partAccept w true j = true) ∧
      split_video w n true =
        (.error (.valueError ("Failed to split video at part " ++ toString i₀)),
         []) := by
  have hex : ∃ i, i ∈ List.range' 1 n.toNat ∧ partAccept w true i = false := by
    obtain ⟨i, h1i, h2i, hc, hr⟩ := hfail
    exact ⟨i, List.mem_range'_1.mpr ⟨h1i, by omega⟩,
      (partAccept_false_iff w i).mpr ⟨hc, hr⟩⟩
  have hcalc : calculate_split_times d n =
      .ok ((List.range n.toNat).map fun i : ℕ =>
        ((i : ℚ) * (d / (n : ℚ)), ((i : ℚ) + 1) * (d / (n : ℚ)))) := by
    unfold calculate_split_times
    rw [if_neg (by omega), if_neg (by omega)]
  have hlen : ((List.range n.toNat).map fun i : ℕ =>
      ((i : ℚ) * (d / (n : ℚ)), ((i : ℚ) + 1) * (d / (n : ℚ)))).length = n.toNat := by
    simp
  obtain ⟨i₀, h1, h2, h3, h4, h5⟩ :=
    split_video_loop_first_fail w true n.toNat 1
      ((List.range n.toNat).map fun i : ℕ =>
        ((i : ℚ) * (d / (n : ℚ)), ((i : ℚ) + 1) * (d / (n : ℚ)))) [] hlen hex
  obtain ⟨hcopy, hreenc⟩ := (partAccept_false_iff w i₀).mp h3
  refine ⟨i₀, h1, by omega, hcopy, hreenc, h4, ?_⟩
  unfold split_video enumerate1
  rw [hff, hdur]
  simp only [hcalc, hlen]
  rw [if_neg (show ¬(true = false) by simp), if_neg (show ¬(n < 2 ∨ 20 < n) by omega)]
  exact h5

/-- Oracle world for the C1 witness: a 5-part plan where parts 1 and 2
succeed by stream copy and every later part fails both strategies. -/
def w1 : SegWorld :=
  ⟨true, .ok 600,
   fun i => if i ≤ 2 then ⟨false, 0, true, 5000, ""⟩ else ⟨false, 1, false, 0, ""⟩,
   fun i => if i ≤ 2 then ⟨false, 0, true, 5000, ""⟩ else ⟨false, 1, false, 0, ""⟩⟩

/-- C1 witness: in `w1`, segment 3 of 5 fails both strategies; the split
aborts naming part 3 and leaves no artifact. -/
theorem split_video_all_or_nothing_witness :
    (w1.ffmpegInstalled = true ∧ w1.durationResult = .ok 600 ∧
      (2 : ℤ) ≤ 5 ∧ (5 : ℤ) ≤ 20 ∧
      (∃ i : ℕ, 1 ≤ i ∧ (i : ℤ) ≤ 5 ∧
        split_segment_stream_copy (w1.copyOutcome i) = false ∧
        split_segment_reencode (w1.reencOutcome i) = false)) ∧
    (∃ i₀ : ℕ, 1 ≤ i₀ ∧ (i₀ : ℤ) ≤ 5 ∧
      split_segment_stream_copy (w1.copyOutcome i₀) = false ∧
      split_segment_reencode (w1.reencOutcome i₀) = false ∧
      (∀ j, 1 ≤ j → j < i₀ → partAccept w1 true j = true) ∧
      split_video w1 5 true =
        (.error (.valueError ("Failed to split video at part " ++ toString i₀)),
         [])) :=
  ⟨⟨rfl, rfl, by decide, by decide,
    ⟨3, by decide, by decide, by decide, by decide⟩⟩,
   split_video_all_or_nothing w1 5 600 rfl rfl (by decide) (by decide)
     ⟨3, by decide, by decide, by decide, by decide⟩⟩

/-- C3: a segment range is accepted by the stream-copy strategy exactly when
the invocation did not time out, exited with code 0, the output file exists
and its size exceeds 1000 bytes; whenever the stream-copy strategy reports
failure (e.g. a successful exit whose output is at most 1000 bytes), the
part's acceptance in the split loop equals the outcome of the re-encode
fallback for that same range. -/
theorem stream_copy_acceptance (o : ExecOutcome) (w : SegWorld) (i : ℕ) :
    (split_segment_stream_copy o = true ↔
      (o.timedOut = false ∧ o.returncode = 0 ∧ o.outExists = true ∧
        1000 < o.outSize)) ∧
    (split_segment_stream_copy (w.copyOutcome i) = false →
      partAccept w true i = split_segment_reencode (w.reencOutcome i)) := by
  constructor
  · unfold split_segment_stream_copy
    by_cases ht : o.timedOut
    · simp [ht]
    · by_cases hc : o.returncode = 0 ∧ o.outExists = true ∧ 1000 < o.outSize
      · simp [ht, hc]
      · simp [ht, hc]
  · intro h
    unfold partAccept
    rw [h]
    simp

/-- Oracle world for the C3 witness: the stream-copy invocation exits
successfully but produces a 500-byte file; the re-encode one succeeds. -/
def w3 : SegWorld :=
  ⟨true, .ok 600,
   fun _ => ⟨false, 0, true, 500, ""⟩,
   fun _ => ⟨false, 0, true, 5000, ""⟩⟩

/-- C3 witness: a successful exit with a 500-byte output is rejected by the
stream-copy strategy and the part's fate is decided by the re-encode
fallback. -/
theorem stream_copy_acceptance_witness :
    split_segment_stream_copy ⟨false, 0, true, 500, ""⟩ = false ∧
      partAccept w3 true 1 = split_segment_reencode (w3.reencOutcome 1) :=
  ⟨by decide,
   (stream_copy_acceptance ⟨false, 0, true, 500, ""⟩ w3 1).2 (by decide)⟩

/-- Oracle for one run of `compress_target_size`: FFmpeg availability, the
`get_video_duration` result, and the outcome of `_run_two_pass_encode`. -/
structure CompressWorld where
  ffmpegInstalled : Bool
  durationResult : Except PyErr ℚ
  twoPassOk : Bool

/-- `compress_target_size` (video_service.py:413): computes
`target_bitrate_kbps = target_size_mb * 8192 / duration - audio_bitrate_kbps`
and raises `ValueError` when that is below 100, before running the two-pass
encode.  (A zero probed duration would raise `ZeroDivisionError` in the
Python float division, embedded as the explicit guard.) -/
def compress_target_size (w : CompressWorld) (target_size_mb : ℚ)
    (audio_bitrate_kbps : ℚ) : Except PyErr Unit :=
  if w.ffmpegInstalled = false then
    .error (.runtimeError "FFmpeg is not installed")
  else
    match w.durationResult with
    | .error e => .error e
    | .ok duration =>
      if duration = 0 then .error (.zeroDivisionError "float division by zero")
      else
        let target_bitrate_kbps :=
          target_size_mb * 8192 / duration - audio_bitrate_kbps
        if target_bitrate_kbps < 100 then
          .error (.valueError
            "Target size too small - would result in unplayable video")
        else if w.twoPassOk then .ok ()
        else .error (.valueError "Video compression failed")

/-- C4: with the default 128 kbps audio bitrate, for every probed duration
`d > 0` and target size `> 0`, `compress_target_size` fails with the
target-too-small `ValueError` exactly when `target*8192/d - 128 < 100`; the
result does not depend on the encode outcome (the theorem holds for both
values of `twoPass`), i.e. the check happens before any encode pass. -/
theorem compress_target_size_too_small (d target : ℚ) (twoPass : Bool)
    (hd : 0 < d) (ht : 0 < target) :
    compress_target_size ⟨true, .ok d, twoPass⟩ target 128 =
        .error (.valueError
          "Target size too small - would result in unplayable video") ↔
      target * 8192 / d - 128 < 100 := by
  simp only [compress_target_size]
  rw [if_neg (by simp), if_neg hd.ne']
  by_cases hb : target * 8192 / d - 128 < 100
  · simp [hb]
  · cases twoPass <;> simp [hb]

/-- C4 witness: targetSizeMB 10 at duration 600 s computes about 8.5 kbps,
below the 100 kbps floor, and fails with the target-too-small error. -/
theorem compress_target_size_too_small_witness :
    (0 : ℚ) < 600 ∧ (0 : ℚ) < 10 ∧
      compress_target_size ⟨true, .ok 600, true⟩ 10 128 =
        .error (.valueError
          "Target size too small - would result in unplayable video") :=
  ⟨by norm_num, by norm_num,
   (compress_target_size_too_small 600 10 true (by norm_num) (by norm_num)).mpr
     (by norm_num)⟩

/-- The `format` section of parsed ffprobe JSON output: the code reads
`format_info.get("duration", 0)` and `format_info.get("size", 0)`, so absent
keys are `none` and present values are modelled already converted by
`float(...)` / `int(...)`. -/
structure FormatInfo where
  duration : Option ℚ
  size : Option ℤ
deriving DecidableEq, Repr

/-- One entry of the `streams` array of parsed ffprobe JSON output. -/
structure StreamInfo where
  codec_type : String
  codec_name : Option String
  width : Option ℤ
  height : Option ℤ
deriving DecidableEq, Repr

/-- Parsed ffprobe JSON output: a `format` section and a `streams` array
(`data.get("streams", [])` makes a missing array the empty list). -/
structure FFprobeData where
  format : FormatInfo
  streams : List StreamInfo
deriving DecidableEq, Repr

/-- The ffprobe subprocess run as observed by `get_video_info`: whether it
timed out, its exit code, and the parsed JSON (`none` when `json.loads`
raises). -/
structure ProbeRun where
  timedOut : Bool
  returncode : ℤ
  parsed : Option FFprobeData
deriving DecidableEq, Repr

/-- The metadata dictionary returned by `get_video_info`. -/
structure MediaInfo where
  filename : String
  duration : ℚ
  duration_formatted : String
  size : ℤ
  video_codec : String
  resolution : String
deriving DecidableEq, Repr

/-- `get_video_info` (video_service.py:61): raises `ValueError` on timeout,
a non-zero exit code, or unparseable JSON; otherwise builds the metadata
dictionary from the first stream whose `codec_type` is `"video"`, with
`video_codec or "unknown"` (Python `or` also replaces an empty string) and
`f"{width}x{height}" if width and height else "unknown"` (`0` is falsy). -/
def get_video_info (filename : String) (r : ProbeRun) :
    Except PyErr MediaInfo :=
  if r.timedOut then
    .error (.valueError "Failed to get video info: timed out")
  else if r.returncode ≠ 0 then
    .error (.valueError "Failed to get video info: Failed to read video file")
  else
    match r.parsed with
    | none => .error (.valueError "Failed to get video info: Expecting value")
    | some data =>
      let duration := (data.format.duration).getD 0
      let size := (data.format.size).getD 0
      let vs := data.streams.find? fun st => st.codec_type == "video"
      let video_codec :=
        match vs with
        | some st => st.codec_name.getD "unknown"
        | none => "unknown"
      let width : ℤ := match vs with | some st => st.width.getD 0 | none => 0
      let height : ℤ := match vs with | some st => st.height.getD 0 | none => 0
      .ok ⟨filename, duration, format_duration duration, size,
        if video_codec = "" then "unknown" else video_codec,
        if width ≠ 0 ∧ height ≠ 0 then
          toString width ++ "x" ++ toString height
        else "unknown"⟩

lemma format_duration_zero : format_duration 0 = "0:00" := by
  unfold format_duration pyMod
  norm_num
  decide

/-- C9 counterexample: a probe run that exits 0 and parses but contains zero
streams does NOT fail; `get_video_info` returns a metadata descriptor (codec
and resolution `"unknown"`) instead of raising. -/
theorem get_video_info_zero_streams_ok :
    get_video_info "video.mp4" ⟨false, 0, some ⟨⟨none, none⟩, []⟩⟩ =
      .ok ⟨"video.mp4", 0, "0:00", 0, "unknown", "unknown"⟩ := by
  simp [get_video_info, format_duration_zero]

/-- C9 amended: the probe fails (`ValueError`) on timeout, non-zero exit or
unparseable output, but a parseable zero-stream probe SUCCEEDS, returning a
descriptor whose codec and resolution are `"unknown"`. -/
theorem get_video_info_zero_streams (fn : String) (r : ProbeRun)
    (data : FFprobeData) (h1 : r.timedOut = false) (h2 : r.returncode = 0)
    (h3 : r.parsed = some data) (h4 : data.streams = []) :
    ∃ m, get_video_info fn r = .ok m ∧
      m.video_codec = "unknown" ∧ m.resolution = "unknown" := by
  simp [get_video_info, h1, h2, h3, h4]

/-- C9 witness for the amended claim, at the concrete zero-stream probe. -/
theorem get_video_info_zero_streams_witness :
    (false, (0 : ℤ), (some (⟨⟨none, none⟩, []⟩ : FFprobeData))) =
        (false, 0, some ⟨⟨none, none⟩, []⟩) ∧
      ∃ m, get_video_info "video.mp4" ⟨false, 0, some ⟨⟨none, none⟩, []⟩⟩ =
        .ok m ∧ m.video_codec = "unknown" ∧ m.resolution = "unknown" :=
  ⟨rfl,
   get_video_info_zero_streams "video.mp4" ⟨false, 0, some ⟨⟨none, none⟩, []⟩⟩
     ⟨⟨none, none⟩, []⟩ rfl rfl rfl rfl⟩

/-- Round half to even to an integer: Python `round` semantics on the exact
rational model of floats. -/
def roundHalfEven (x : ℚ) : ℤ :=
  let f := ⌊x⌋
  let r := x - f
  if r < 1 / 2 then f
  else if 1 / 2 < r then f + 1
  else if f % 2 = 0 then f else f + 1

/-- Python `round(x, d)`: round half to even at `d` decimal places. -/
def pyRound (x : ℚ) (d : ℕ) : ℚ := (roundHalfEven (x * 10 ^ d) : ℚ) / 10 ^ d

/-- Python `str.lower()` (ASCII case mapping, which covers every string this
code compares against). -/
def pyLower (s : String) : String := String.mk (s.data.map Char.toLower)

/-- Python truthiness of an optional float: `None` and `0.0` are falsy. -/
def pyTruthyQ : Option ℚ → Bool
  | none => false
  | some x => decide (x ≠ 0)

/-- Python truthiness of an optional string: `None` and `""` are falsy. -/
def pyTruthyS : Option String → Bool
  | none => false
  | some s => decide (s ≠ "")

/-- The `compression_ratios` dict of `estimate_output_size` with
`dict.get(key, 0.5)`. -/
def compression_ratios_get (key : String) : ℚ :=
  if key = "low" then 3 / 10
  else if key = "medium" then 1 / 2
  else if key = "high" then 7 / 10
  else 1 / 2

/-- The `quality_factors` dict of the resolution branch with
`dict.get(key, 0.5)` (textually the same table). -/
def quality_factors_get (key : String) : ℚ :=
  if key = "low" then 3 / 10
  else if key = "medium" then 1 / 2
  else if key = "high" then 7 / 10
  else 1 / 2

/-- The `resolution_map` dict of the resolution branch with
`dict.get(resolution, current_height)`. -/
def resolution_map_get (key : String) (dflt : ℤ) : ℤ :=
  if key = "2160p" then 2160
  else if key = "1440p" then 1440
  else if key = "1080p" then 1080
  else if key = "720p" then 720
  else if key = "480p" then 480
  else if key = "360p" then 360
  else dflt

/-- The estimate dictionary returned by `estimate_output_size`. -/
structure EstimateResult where
  original_size_mb : ℚ
  estimated_size_mb : ℚ
  reduction_percent : ℚ
deriving DecidableEq, Repr

/-- `estimate_output_size` (video_service.py:611): probes the input, picks
the estimate for the requested mode (falling through to the original size
when the mode is unknown or its parameters are falsy), and returns the
rounded sizes with the reduction percentage.  The resolution branch parses
the current height back out of the probe's `"{width}x{height}"` string;
`int(...)` failure and the float divisions by zero are embedded as the
explicit Python exceptions they raise. -/
def estimate_output_size (fn : String) (r : ProbeRun) (mode : String)
    (target_size_mb : Option ℚ) (quality_preset : Option String)
    (resolution : Option String) : Except PyErr EstimateResult :=
  match get_video_info fn r with
  | .error e => .error e
  | .ok info =>
    let original_size_mb : ℚ := (info.size : ℚ) / (1024 * 1024)
    let est : Except PyErr ℚ :=
      if (mode == "target_size") && pyTruthyQ target_size_mb then
        .ok (target_size_mb.getD 0)
      else if (mode == "quality") && pyTruthyS quality_preset then
        .ok (original_size_mb *
          compression_ratios_get (pyLower (quality_preset.getD "")))
      else if (mode == "resolution") && pyTruthyS resolution &&
          pyTruthyS quality_preset then
        let res_parts := info.resolution.splitOn "x"
        if h2 : res_parts.length = 2 then
          match (res_parts.get ⟨1, by omega⟩).toInt? with
          | none =>
            .error (.valueError "invalid literal for int() with base 10")
          | some current_height =>
            if current_height = 0 then
              .error (.zeroDivisionError "float division by zero")
            else
              let target_height :=
                resolution_map_get (resolution.getD "") current_height
              let scale_factor : ℚ :=
                ((target_height : ℚ) / (current_height : ℚ)) ^ 2
              let quality_factor :=
                quality_factors_get (pyLower (quality_preset.getD ""))
              .ok (original_size_mb * scale_factor * quality_factor)
        else .ok (original_size_mb * (1 / 2))
      else .ok original_size_mb
    match est with
    | .error e => .error e
    | .ok estimated_size_mb =>
      if original_size_mb = 0 then
        .error (.zeroDivisionError "float division by zero")
      else
        let reduction_pct :=
          (original_size_mb - estimated_size_mb) / original_size_mb * 100
        .ok ⟨pyRound original_size_mb 2, pyRound estimated_size_mb 2,
          pyRound reduction_pct 1⟩

lemma pyRound_zero (d : ℕ) : pyRound 0 d = 0 := by
  unfold pyRound roundHalfEven
  norm_num

lemma estimate_quality_case (fn : String) (r : ProbeRun) (info : MediaInfo)
    (tgt : Option ℚ) (res : Option String) (preset : String) (ratio : ℚ)
    (hprobe : get_video_info fn r = .ok info)
    (ho : ((info.size : ℚ) / (1024 * 1024)) ≠ 0)
    (hTr : pyTruthyS (some preset) = true)
    (hl : compression_ratios_get (pyLower ((some preset).getD "")) = ratio) :
    estimate_output_size fn r "quality" tgt (some preset) res =
      .ok ⟨pyRound ((info.size : ℚ) / (1024 * 1024)) 2,
        pyRound ((info.size : ℚ) / (1024 * 1024) * ratio) 2,
        pyRound (((info.size : ℚ) / (1024 * 1024) -
            (info.size : ℚ) / (1024 * 1024) * ratio) /
          ((info.size : ℚ) / (1024 * 1024)) * 100) 1⟩ := by
  simp only [estimate_output_size, hprobe]
  have hc1 : ((("quality" : String) == "target_size") && pyTruthyQ tgt)
      = false := by
    rw [show (("quality" : String) == "target_size") = false from by decide,
      Bool.false_and]
  have hc2 : ((("quality" : String) == "quality") && pyTruthyS (some preset))
      = true := by
    rw [show (("quality" : String) == "quality") = true from by decide,
      Bool.true_and, hTr]
  rw [hc1, hc2, hl]
  simp [ho]

/-- C6: for every successfully probed input of positive size (the reduction
formula divides by the original size, so the claim presupposes it nonzero)
and every preset in `{low, medium, high}`, the quality-mode estimate is
`original * ratio` with ratio `0.3/0.5/0.7`, the reduction percentage is
`(original - estimated)/original * 100`, sizes rounded to 2 decimals and the
percentage to 1 decimal. -/
theorem estimate_quality_formula (fn : String) (r : ProbeRun)
    (info : MediaInfo) (preset : String) (tgt : Option ℚ) (res : Option String)
    (hprobe : get_video_info fn r = .ok info) (hsize : 0 < info.size)
    (hpreset : preset = "low" ∨ preset = "medium" ∨ preset = "high") :
    estimate_output_size fn r "quality" tgt (some preset) res =
      .ok ⟨pyRound ((info.size : ℚ) / (1024 * 1024)) 2,
        pyRound ((info.size : ℚ) / (1024 * 1024) *
          (if preset = "low" then 3 / 10
           else if preset = "medium" then 1 / 2 else 7 / 10)) 2,
        pyRound (((info.size : ℚ) / (1024 * 1024) -
            (info.size : ℚ) / (1024 * 1024) *
              (if preset = "low" then 3 / 10
               else if preset = "medium" then 1 / 2 else 7 / 10)) /
          ((info.size : ℚ) / (1024 * 1024)) * 100) 1⟩ := by
  have ho : ((info.size : ℚ) / (1024 * 1024)) ≠ 0 := by
    have h1 : (0 : ℚ) < (info.size : ℚ) := by exact_mod_cast hsize
    positivity
  rcases hpreset with h | h | h <;> subst h
  · refine (estimate_quality_case fn r info tgt res "low" (3 / 10) hprobe ho
      (by decide) ?_).trans ?_
    · rw [show pyLower ((some "low").getD "") = "low" from by decide]
      unfold compression_ratios_get
      rw [if_pos rfl]
    · rw [if_pos rfl]
  · refine (estimate_quality_case fn r info tgt res "medium" (1 / 2) hprobe ho
      (by decide) ?_).trans ?_
    · rw [show pyLower ((some "medium").getD "") = "medium" from by decide]
      unfold compression_ratios_get
      rw [if_neg (show ¬(("medium" : String) = "low") from by decide),
        if_pos rfl]
    · rw [if_neg (show ¬(("medium" : String) = "low") from by decide),
        if_pos rfl]
  · refine (estimate_quality_case fn r info tgt res "high" (7 / 10) hprobe ho
      (by decide) ?_).trans ?_
    · rw [show pyLower ((some "high").getD "") = "high" from by decide]
      unfold compression_ratios_get
      rw [if_neg (show ¬(("high" : String) = "low") from by decide),
        if_neg (show ¬(("high" : String) = "medium") from by decide),
        if_pos rfl]
    · rw [if_neg (show ¬(("high" : String) = "low") from by decide),
        if_neg (show ¬(("high" : String) = "medium") from by decide)]

/-- Probe run for the C6/C10 witnesses: parseable output, exit 0, duration
600 s, container size 104857600 bytes (100 MB), no streams listed. -/
def probeR6 : ProbeRun := ⟨false, 0, some ⟨⟨some 600, some 104857600⟩, []⟩⟩

/-- The descriptor `get_video_info` returns for `probeR6`. -/
def info6 : MediaInfo :=
  ⟨"v.mp4", 600, format_duration 600, 104857600, "unknown", "unknown"⟩

/-- C6 witness: original size 100 MB with preset "medium" estimates
50 MB and a 50.0 % reduction. -/
theorem estimate_quality_formula_witness :
    get_video_info "v.mp4" probeR6 = .ok info6 ∧ (0 : ℤ) < info6.size ∧
      (("medium" : String) = "low" ∨ ("medium" : String) = "medium" ∨
        ("medium" : String) = "high") ∧
      estimate_output_size "v.mp4" probeR6 "quality" none (some "medium") none =
        .ok ⟨pyRound ((info6.size : ℚ) / (1024 * 1024)) 2,
          pyRound ((info6.size : ℚ) / (1024 * 1024) *
            (if ("medium" : String) = "low" then 3 / 10
             else if ("medium" : String) = "medium" then 1 / 2 else 7 / 10)) 2,
          pyRound (((info6.size : ℚ) / (1024 * 1024) -
              (info6.size : ℚ) / (1024 * 1024) *
                (if ("medium" : String) = "low" then 3 / 10
                 else if ("medium" : String) = "medium" then 1 / 2
                 else 7 / 10)) /
            ((info6.size : ℚ) / (1024 * 1024)) * 100) 1⟩ ∧
      estimate_output_size "v.mp4" probeR6 "quality" none (some "medium") none =
        .ok ⟨100, 50, 50⟩ := by
  have h := estimate_quality_formula "v.mp4" probeR6 info6 "medium" none none
    rfl (by decide) (Or.inr (Or.inl rfl))
  refine ⟨rfl, by decide, Or.inr (Or.inl rfl), h, h.trans ?_⟩
  rw [if_neg (show ¬(("medium" : String) = "low") from by decide), if_pos rfl]
  norm_num [pyRound, roundHalfEven, info6]

/-- C10 counterexample: a successfully probed input whose reported size is
absent (hence 0) makes `estimate_output_size` raise `ZeroDivisionError` in
the reduction computation instead of returning a result, already for an
unknown mode. -/
theorem estimate_zero_size_raises :
    estimate_output_size "v.mp4" ⟨false, 0, some ⟨⟨some 600, none⟩, []⟩⟩
        "bogus" none none none =
      .error (.zeroDivisionError "float division by zero") := by
  simp only [estimate_output_size,
    show get_video_info "v.mp4" ⟨false, 0, some ⟨⟨some 600, none⟩, []⟩⟩ =
      .ok ⟨"v.mp4", 600, format_duration 600, 0, "unknown", "unknown"⟩ from rfl]
  rw [show ((("bogus" : String) == "target_size") && pyTruthyQ none) = false
      from by decide,
    show ((("bogus" : String) == "quality") && pyTruthyS none) = false
      from by decide,
    show ((("bogus" : String) == "resolution") && pyTruthyS none &&
        pyTruthyS none) = false
      from by decide]
  norm_num

/-- C10 amended: for every successfully probed input of POSITIVE size, an
unknown mode, or a known mode whose required parameters are absent (`None`,
or zero for the target size), yields no failure: the estimate equals the
rounded original size and the reduction is 0.0.  (At size 0 the code raises
`ZeroDivisionError`, see the counterexample.) -/
theorem estimate_fallback_identity (fn : String) (r : ProbeRun)
    (info : MediaInfo) (mode : String) (tgt : Option ℚ)
    (preset : Option String) (res : Option String)
    (hprobe : get_video_info fn r = .ok info) (hsize : 0 < info.size)
    (hcond : (mode ≠ "target_size" ∧ mode ≠ "quality" ∧ mode ≠ "resolution") ∨
      (mode = "target_size" ∧ (tgt = none ∨ tgt = some 0)) ∨
      (mode = "quality" ∧ preset = none) ∨
      (mode = "resolution" ∧ (res = none ∨ preset = none))) :
    estimate_output_size fn r mode tgt preset res =
      .ok ⟨pyRound ((info.size : ℚ) / (1024 * 1024)) 2,
        pyRound ((info.size : ℚ) / (1024 * 1024)) 2, 0⟩ := by
  have ho : ((info.size : ℚ) / (1024 * 1024)) ≠ 0 := by
    have h1 : (0 : ℚ) < (info.size : ℚ) := by exact_mod_cast hsize
    positivity
  have hc1 : ((mode == "target_size") && pyTruthyQ tgt) = false := by
    rcases hcond with ⟨h1, h2, h3⟩ | ⟨h1, h2⟩ | ⟨h1, h2⟩ | ⟨h1, h2⟩
    · rw [beq_eq_false_iff_ne.mpr h1, Bool.false_and]
    · subst h1
      rcases h2 with h2 | h2 <;> subst h2 <;> simp [pyTruthyQ]
    · subst h1
      rw [show (("quality" : String) == "target_size") = false from by decide,
        Bool.false_and]
    · subst h1
      rw [show (("resolution" : String) == "target_size") = false
          from by decide,
        Bool.false_and]
  have hc2 : ((mode == "quality") && pyTruthyS preset) = false := by
    rcases hcond with ⟨h1, h2, h3⟩ | ⟨h1, h2⟩ | ⟨h1, h2⟩ | ⟨h1, h2⟩
    · rw [beq_eq_false_iff_ne.mpr h2, Bool.false_and]
    · subst h1
      rw [show (("target_size" : String) == "quality") = false from by decide,
        Bool.false_and]
    · subst h1
      subst h2
      rw [show pyTruthyS none = false from rfl, Bool.and_false]
    · subst h1
      rw [show (("resolution" : String) == "quality") = false from by decide,
        Bool.false_and]
  have hc3 : ((mode == "resolution") && pyTruthyS res && pyTruthyS preset)
      = false := by
    rcases hcond with ⟨h1, h2, h3⟩ | ⟨h1, h2⟩ | ⟨h1, h2⟩ | ⟨h1, h2⟩
    · rw [beq_eq_false_iff_ne.mpr h3, Bool.false_and, Bool.false_and]
    · subst h1
      rw [show (("target_size" : String) == "resolution") = false
          from by decide,
        Bool.false_and, Bool.false_and]
    · subst h1
      rw [show (("quality" : String) == "resolution") = false from by decide,
        Bool.false_and, Bool.false_and]
    · subst h1
      rcases h2 with h2 | h2 <;> subst h2
      · rw [show pyTruthyS none = false from rfl, Bool.and_false,
          Bool.false_and]
      · rw [show pyTruthyS none = false from rfl, Bool.and_false]
  simp only [estimate_output_size, hprobe, hc1, hc2, hc3, Bool.false_eq_true,
    if_false]
  rw [if_neg ho, sub_self, zero_div, zero_mul, pyRound_zero]

/-- C10 witness for the amended claim: mode "bogus" on the 100 MB probe
returns the rounded original size with reduction 0. -/
theorem estimate_fallback_identity_witness :
    get_video_info "v.mp4" probeR6 = .ok info6 ∧ (0 : ℤ) < info6.size ∧
      (("bogus" : String) ≠ "target_size" ∧ ("bogus" : String) ≠ "quality" ∧
        ("bogus" : String) ≠ "resolution") ∧
      estimate_output_size "v.mp4" probeR6 "bogus" none none none =
        .ok ⟨pyRound ((info6.size : ℚ) / (1024 * 1024)) 2,
          pyRound ((info6.size : ℚ) / (1024 * 1024)) 2, 0⟩ :=
  ⟨rfl, by decide, ⟨by decide, by decide, by decide⟩,
   estimate_fallback_identity "v.mp4" probeR6 info6 "bogus" none none none rfl
     (by decide) (Or.inl ⟨by decide, by decide, by decide⟩)⟩

/-- `_get_crf_for_preset` (video_service.py:391):
`crf_map.get(preset.lower(), 23)` — an unknown preset silently falls back to
CRF 23. -/
def get_crf_for_preset (preset : String) : ℕ :=
  if pyLower preset = "low" then 28
  else if pyLower preset = "medium" then 23
  else if pyLower preset = "high" then 18
  else 23

/-- Oracle for one run of the quality-compression endpoint: FFmpeg
availability, the `validate_video_file` verdict, and the outcome of the
single CRF encode invocation. -/
structure QualityWorld where
  ffmpegInstalled : Bool
  validVideo : Bool
  encodeOutcome : ExecOutcome

/-- `compress_quality` (video_service.py:469): checks FFmpeg, maps the
preset to a CRF value, runs the encode and requires exit code 0 plus an
existing output file.  The second component records the CRF values of the
encode invocations actually performed. -/
def compress_quality (w : QualityWorld) (quality_preset : String) :
    Except PyErr Unit × List ℕ :=
  if w.ffmpegInstalled = false then
    (.error (.runtimeError "FFmpeg is not installed"), [])
  else
    let crf := get_crf_for_preset quality_preset
    if w.encodeOutcome.timedOut then
      (.error (.valueError "Compression timed out (>1 hour)"), [crf])
    else if w.encodeOutcome.returncode ≠ 0 ∨ w.encodeOutcome.outExists = false
    then
      (.error (.valueError ("FFmpeg failed: " ++ w.encodeOutcome.stderr)),
       [crf])
    else (.ok (), [crf])

/-- The `/compress/quality` endpoint handler (routers/video.py:371): 503
when FFmpeg is missing, 400 when `preset.lower()` is not one of
low/medium/high, 400 for an invalid video file, then delegates to
`compress_quality`, mapping `ValueError` to HTTP 400 and any other failure
to HTTP 500. -/
def compress_video_quality (w : QualityWorld) (preset : String) :
    Except PyErr Unit × List ℕ :=
  if w.ffmpegInstalled = false then
    (.error (.httpException 503 "FFmpeg is not installed"), [])
  else if (["low", "medium", "high"].contains (pyLower preset)) = false then
    (.error (.httpException 400 "Invalid preset. Use low/medium/high"), [])
  else if w.validVideo = false then
    (.error (.httpException 400 "Invalid video file"), [])
  else
    match compress_quality w preset with
    | (.ok _, tr) => (.ok (), tr)
    | (.error (.valueError m), tr) => (.error (.httpException 400 m), tr)
    | (.error _e, tr) => (.error (.httpException 500 "Compression failed"), tr)

/-- C8 counterexample: the preset string "LOW" lies outside
`{low, medium, high}`, yet the quality endpoint does not fail: the router
lowercases the preset before validating, accepts it, and performs an encode
(with CRF 28). -/
theorem compress_video_quality_uppercase_accepted :
    ("LOW" ∉ (["low", "medium", "high"] : List String)) ∧
      compress_video_quality ⟨true, true, ⟨false, 0, true, 5000, ""⟩⟩ "LOW" =
        (.ok (), [28]) :=
  ⟨by decide, rfl⟩

/-- C8 amended: with the transcoder installed, every preset whose
Python-lowercased form is outside `{low, medium, high}` is rejected by the
endpoint with HTTP 400 (the rejected-request condition) before any encode
invocation (the recorded encode trace is empty). -/
theorem compress_video_quality_invalid_preset (w : QualityWorld)
    (preset : String) (hff : w.ffmpegInstalled = true)
    (hbad : (["low", "medium", "high"].contains (pyLower preset)) = false) :
    compress_video_quality w preset =
      (.error (.httpException 400 "Invalid preset. Use low/medium/high"),
       []) := by
  unfold compress_video_quality
  rw [hff, if_neg (by simp), hbad, if_pos rfl]

/-- C8 witness for the amended claim: preset "ultra" is rejected with HTTP
400 and no encode happens. -/
theorem compress_video_quality_invalid_preset_witness :
    ((⟨true, true, ⟨false, 0, true, 5000, ""⟩⟩ : QualityWorld).ffmpegInstalled
        = true) ∧
      ((["low", "medium", "high"].contains (pyLower "ultra")) = false) ∧
      compress_video_quality ⟨true, true, ⟨false, 0, true, 5000, ""⟩⟩ "ultra" =
        (.error (.httpException 400 "Invalid preset. Use low/medium/high"),
         []) :=
  ⟨rfl, by decide,
   compress_video_quality_invalid_preset ⟨true, true, ⟨false, 0, true, 5000, ""⟩⟩
     "ultra" rfl (by decide)⟩

end VideoService
